import Mathlib

/-!
Verification development for the STEP shock/impact data logger.

The repository's `src/config.h` supplies the configuration constants, the
`SystemState` enumeration and the self-test result bit constants; those are
embedded below verbatim (C integer constants become `Nat`, the real-valued
threshold becomes `ℚ`).  The event-detection and bounded-capture pipeline
(RingBuffer, TriggerDetector, SelfTestRunner gating, LogSession, operating
state machine) is described by the specification but its implementation is
not part of the repository snapshot, so those components are modelled from
the specification text; each such definition says so in its doc comment.
-/

namespace STEP

/-! ## Constants from src/config.h (Logging Configuration, lines 35-39) -/

/-- Constant `SAMPLE_RATE_HZ` from src/config.h line 35: target sample rate. -/
def SAMPLE_RATE_HZ : Nat := 1000

/-- Constant `SAMPLE_INTERVAL_US` from src/config.h line 36: microseconds
between samples (1000 Hz). -/
def SAMPLE_INTERVAL_US : Nat := 1000

/-- Constant `PRE_TRIGGER_MS` from src/config.h line 37: buffer before trigger. -/
def PRE_TRIGGER_MS : Nat := 100

/-- Constant `POST_TRIGGER_MS` from src/config.h line 38: continue logging
after impact. -/
def POST_TRIGGER_MS : Nat := 2000

/-- Constant `TRIGGER_THRESHOLD_G` from src/config.h line 39: g-force to
trigger logging (5.0 in the source, an exact value, embedded as `ℚ`). -/
def TRIGGER_THRESHOLD_G : ℚ := 5

/-! ## Self-test result bits from src/config.h lines 85-92 -/

/-- Constant `TEST_POWER` (0x01, bit 0: power system) from src/config.h. -/
def TEST_POWER : Nat := 0x01

/-- Constant `TEST_I2C` (0x02, bit 1: I2C bus scan) from src/config.h. -/
def TEST_I2C : Nat := 0x02

/-- Constant `TEST_HIGHG` (0x04, bit 2: H3LIS331DL calibration) from src/config.h. -/
def TEST_HIGHG : Nat := 0x04

/-- Constant `TEST_GYRO` (0x08, bit 3: MPU6050 gyro zero) from src/config.h. -/
def TEST_GYRO : Nat := 0x08

/-- Constant `TEST_SD` (0x10, bit 4: SD card read/write) from src/config.h. -/
def TEST_SD : Nat := 0x10

/-- Constant `TEST_OLED` (0x20, bit 5: OLED display, optional) from src/config.h. -/
def TEST_OLED : Nat := 0x20

/-- Constant `TEST_LED` (0x40, bit 6: LED strip) from src/config.h. -/
def TEST_LED : Nat := 0x40

/-- Constant `TEST_BUZZER` (0x80, bit 7: buzzer) from src/config.h. -/
def TEST_BUZZER : Nat := 0x80

/-! ## SystemState enumeration from src/config.h lines 71-80 -/

/-- Enumeration `SystemState` from src/config.h lines 71-80, in source order. -/
inductive SystemState where
  | STATE_BOOT
  | STATE_SELFTEST
  | STATE_IDLE
  | STATE_ARMED
  | STATE_TRIGGERED
  | STATE_LOGGING
  | STATE_COMPLETE
  | STATE_ERROR
deriving DecidableEq, Repr, Fintype

/-- Numeric value of each `SystemState` enumerator: the C enum in
src/config.h assigns consecutive values starting at 0 in declaration
order, so this is the value the compiler gives each enumerator. -/
def SystemState.toCode : SystemState → Nat
  | .STATE_BOOT => 0
  | .STATE_SELFTEST => 1
  | .STATE_IDLE => 2
  | .STATE_ARMED => 3
  | .STATE_TRIGGERED => 4
  | .STATE_LOGGING => 5
  | .STATE_COMPLETE => 6
  | .STATE_ERROR => 7

/-! ## Data model (spec section 3) -/

/-- Modelled from the spec: `Sample` record (spec section 3) with a `u64`
microsecond timestamp and six sensor axis values in g and deg/s.  The `f32`
axis fields are embedded as exact rationals.  The implementation of the
pipeline is missing from the repository snapshot (only config.h is present). -/
structure Sample where
  timestamp_us : Nat
  ax : ℚ
  ay : ℚ
  az : ℚ
  gx : ℚ
  gy : ℚ
  gz : ℚ
deriving DecidableEq, Repr

/-- Modelled from the spec: derived pre-trigger window size in samples,
capacity = `PRE_TRIGGER_MS × SAMPLE_RATE_HZ / 1000` (spec section 3,
RingBuffer entry). -/
def preTriggerSamples : Nat := PRE_TRIGGER_MS * SAMPLE_RATE_HZ / 1000

/-- Modelled from the spec: derived post-trigger window size in samples,
`POST_TRIGGER_MS` at `SAMPLE_RATE_HZ` (spec sections 4.4 and 8). -/
def postTriggerSamples : Nat := POST_TRIGGER_MS * SAMPLE_RATE_HZ / 1000

/-! ## RingBuffer (spec section 4.2), modelled from the spec -/

/-- Modelled from the spec: fixed-capacity circular store of the most recent
pre-trigger window of samples (spec sections 2 and 4.2).  The implementation
is missing from the repository snapshot.  `data` holds the stored samples
newest-first; capacity is fixed at construction. -/
structure RingBuffer where
  capacity : Nat
  data : List Sample
deriving DecidableEq, Repr

/-- Modelled from the spec: a freshly constructed, empty ring buffer of the
given capacity (capacity fixed at construction, never resized). -/
def RingBuffer.empty (c : Nat) : RingBuffer := ⟨c, []⟩

/-- Modelled from the spec: `push(Sample)` inserts the new sample and, once
full, overwrites the logically oldest slot (spec section 4.2).  With the
newest-first representation this keeps the `capacity` most recent samples. -/
def RingBuffer.push (b : RingBuffer) (s : Sample) : RingBuffer :=
  { b with data := (s :: b.data).take b.capacity }

/-- Number of samples currently held by the buffer. -/
def RingBuffer.size (b : RingBuffer) : Nat := b.data.length

/-- Modelled from the spec: `drain()` returns all held samples oldest-first
without mutating state (spec section 4.2); the unchanged buffer is returned
alongside the sequence to make the absence of mutation explicit. -/
def RingBuffer.drain (b : RingBuffer) : List Sample × RingBuffer :=
  (b.data.reverse, b)

/-- A sequence of pushes, oldest pushed first. -/
def RingBuffer.pushAll (b : RingBuffer) (xs : List Sample) : RingBuffer :=
  xs.foldl RingBuffer.push b

/-! ## TriggerDetector (spec section 4.3), modelled from the spec -/

/-- Modelled from the spec: trigger detector state; `fired` is the one-shot
flag that is set on the first trigger and cleared on re-arming (spec
section 4.3). -/
structure TriggerDetector where
  fired : Bool
deriving DecidableEq, Repr

/-- Modelled from the spec: a reset detector, the state after re-entering
ARMED from IDLE (the IDLE to ARMED transition resets the fired flag). -/
def TriggerDetector.reset : TriggerDetector := ⟨false⟩

/-- Squared accelerometer magnitude `ax² + ay² + az²` of a sample, in g².
The spec's magnitude is `sqrt` of this value; since both the magnitude and
the threshold are nonnegative, the spec's comparison `m ≥ TRIGGER_THRESHOLD_G`
is equivalent to `magnitudeSq ≥ TRIGGER_THRESHOLD_G²`, which keeps the
detector exactly computable. -/
def magnitudeSq (s : Sample) : ℚ := s.ax ^ 2 + s.ay ^ 2 + s.az ^ 2

/-- Modelled from the spec: `evaluate(Sample) → bool` fires (returns true)
the first tick where the accelerometer magnitude is at least
`TRIGGER_THRESHOLD_G` while in ARMED state, at most once per arm cycle
(spec section 4.3).  Returns the fire signal and the updated detector. -/
def TriggerDetector.evaluate (d : TriggerDetector) (st : SystemState) (s : Sample) :
    Bool × TriggerDetector :=
  if st = SystemState.STATE_ARMED ∧ d.fired = false ∧
      TRIGGER_THRESHOLD_G ^ 2 ≤ magnitudeSq s then
    (true, ⟨true⟩)
  else
    (false, d)

/-- Number of times the detector fires over a sample sequence delivered
while the machine stays in ARMED (one arm cycle), threading the detector
state from sample to sample. -/
def fireCount (d : TriggerDetector) : List Sample → Nat
  | [] => 0
  | s :: rest =>
    let r := d.evaluate SystemState.STATE_ARMED s
    (if r.1 then 1 else 0) + fireCount r.2 rest

/-! ## SelfTestRunner result and pass condition (spec section 4.5) -/

/-- Modelled from the spec: the overall self-test verdict over a result
bitmask.  All mandatory bits (power, I2C, high-g, gyro, storage) must be 1
for the overall result to be pass (spec section 4.5); the display, LED and
buzzer bits do not gate the verdict. -/
def selfTestPass (r : Nat) : Bool :=
  (r &&& TEST_POWER != 0) && (r &&& TEST_I2C != 0) && (r &&& TEST_HIGHG != 0) &&
    (r &&& TEST_GYRO != 0) && (r &&& TEST_SD != 0)

/-! ## OperatingStateMachine (spec section 4.6), modelled from the spec -/

/-- Modelled from the spec: the events driving the operating state machine,
one per row of the transition table in spec section 4.6. -/
inductive Event where
  | bootDelayDone
  | selfTestDone
  | armSignal
  | triggerFire
  | sessionOpened
  | windowDone
  | resetToIdle
  | fatalFault
deriving DecidableEq, Repr

/-- Modelled from the spec: the transition function of the operating state
machine (spec section 4.6).  The parameter `r` is the boot cycle's
self-test result bitmask, created once per boot and immutable, consulted on
the SELFTEST step to gate IDLE versus ERROR.  Events with no row for the
current state leave the state unchanged; ERROR is terminal. -/
def stepSM (r : Nat) : SystemState → Event → SystemState
  | SystemState.STATE_ERROR, _ => SystemState.STATE_ERROR
  | _, Event.fatalFault => SystemState.STATE_ERROR
  | SystemState.STATE_BOOT, Event.bootDelayDone => SystemState.STATE_SELFTEST
  | SystemState.STATE_SELFTEST, Event.selfTestDone =>
    if selfTestPass r then SystemState.STATE_IDLE else SystemState.STATE_ERROR
  | SystemState.STATE_IDLE, Event.armSignal => SystemState.STATE_ARMED
  | SystemState.STATE_ARMED, Event.triggerFire => SystemState.STATE_TRIGGERED
  | SystemState.STATE_TRIGGERED, Event.sessionOpened => SystemState.STATE_LOGGING
  | SystemState.STATE_LOGGING, Event.windowDone => SystemState.STATE_COMPLETE
  | SystemState.STATE_COMPLETE, Event.resetToIdle => SystemState.STATE_IDLE
  | st, _ => st

/-- Run of the operating state machine from the initial state BOOT over an
event sequence, with the boot cycle's fixed self-test result `r`. -/
def runSM (r : Nat) (es : List Event) : SystemState :=
  es.foldl (stepSM r) SystemState.STATE_BOOT

/-! ## LogSession (spec section 4.4), modelled from the spec -/

/-- Modelled from the spec: the phase of a logging session, draining the
ring buffer or appending live samples (spec section 3, LogSession entry). -/
inductive LogPhase where
  | Draining
  | Live
deriving DecidableEq, Repr

/-- Modelled from the spec: one capture-to-storage lifecycle (spec sections
3 and 4.4).  `rows` is the ordered sequence of data rows written to the
session's file (the header row is not a data row and is not counted). -/
structure LogSession where
  sequence_no : Nat
  samples_written : Nat
  rows : List Sample
  phase : LogPhase
deriving DecidableEq, Repr

/-- Modelled from the spec: opening a session and synchronously draining the
ring buffer into it, oldest-first, before any live sample is written (spec
section 4.4, `drainInto`). -/
def LogSession.openAndDrain (seq : Nat) (b : RingBuffer) : LogSession :=
  let drained := (b.drain).1
  { sequence_no := seq
    samples_written := drained.length
    rows := drained
    phase := LogPhase.Live }

/-- Modelled from the spec: `appendLive(Sample)` writes one live sample row,
called once per tick after the drain completes (spec section 4.4). -/
def LogSession.appendLive (ls : LogSession) (s : Sample) : LogSession :=
  { ls with
    samples_written := ls.samples_written + 1
    rows := ls.rows ++ [s] }

/-- Modelled from the spec: a fault-free session run to COMPLETE: open and
drain the ring buffer, then append live samples once per tick for the
post-trigger window (`postTriggerSamples` live appends, spec section 4.4). -/
def runSession (seq : Nat) (b : RingBuffer) (live : List Sample) : LogSession :=
  (live.take postTriggerSamples).foldl LogSession.appendLive
    (LogSession.openAndDrain seq b)

/-! ## Tick-indexed sampling model (spec sections 4.1 and 5) -/

/-- Modelled from the spec: the sensor payload of one tick (the six axis
values merged from the two motion sensors), without the timestamp. -/
structure MotionData where
  ax : ℚ
  ay : ℚ
  az : ℚ
  gx : ℚ
  gy : ℚ
  gz : ℚ
deriving DecidableEq, Repr

/-- Modelled from the spec: the sample produced by SensorSampler at tick
`n`; it is stamped with the tick's monotonic timestamp, and ticks are
`SAMPLE_INTERVAL_US` apart (spec sections 4.1 and 5). -/
def tickSample (t0 : Nat) (p : Nat → MotionData) (n : Nat) : Sample :=
  { timestamp_us := t0 + n * SAMPLE_INTERVAL_US
    ax := (p n).ax
    ay := (p n).ay
    az := (p n).az
    gx := (p n).gx
    gy := (p n).gy
    gz := (p n).gz }

/-- Modelled from the spec: the ring buffer contents after an ARMED phase of
`T` ticks (ticks 0 to T-1 each pushed, spec section 2 data flow), starting
from an empty buffer of the configured pre-trigger capacity. -/
def armedPhaseBuffer (t0 : Nat) (p : Nat → MotionData) (T : Nat) : RingBuffer :=
  RingBuffer.pushAll (RingBuffer.empty preTriggerSamples)
    ((List.range T).map (tickSample t0 p))

/-- Modelled from the spec: a complete fault-free capture whose trigger
ends an ARMED phase of `T` ticks; the live phase then appends the samples
of the following `postTriggerSamples` consecutive ticks (spec sections 4.4
and 5: samples are processed and written in strict timestamp order with no
reordering or duplication across the drain/live boundary). -/
def completedRun (t0 : Nat) (p : Nat → MotionData) (T : Nat) : LogSession :=
  runSession 1 (armedPhaseBuffer t0 p T)
    ((List.range' T postTriggerSamples).map (tickSample t0 p))

/-! ## Concrete samples used by witnesses -/

/-- A sample with all axis values zero. -/
def sampleZero : Sample := ⟨0, 0, 0, 0, 0, 0, 0⟩

/-- A second concrete sample (tick 1). -/
def sampleOne : Sample := ⟨1000, 0, 1, 0, 0, 0, 0⟩

/-- A third concrete sample (tick 2). -/
def sampleTwo : Sample := ⟨2000, 0, 0, 1, 0, 0, 0⟩

/-- A sample whose accelerometer magnitude is exactly 5 g (a 3-4-0 triple). -/
def sampleFire : Sample := ⟨0, 3, 4, 0, 0, 0, 0⟩

/-- A sample whose accelerometer magnitude is 1 g, strictly below threshold. -/
def sampleQuiet : Sample := ⟨0, 1, 0, 0, 0, 0, 0⟩

end STEP

namespace STEP

/-! ## Claim theorems over the configuration constants -/

/-- C6: the self-test status bitmask encoding assigns bit 0 to power, bit 1
to I2C, bit 2 to high-g calibration, bit 3 to gyro zero, bit 4 to storage
read/write, bit 5 to display, bit 6 to LED and bit 7 to buzzer: each source
constant equals two to the stated bit position, and its sole set bit is that
position. -/
theorem selftest_bitmask_encoding :
    TEST_POWER = 2 ^ 0 ∧ TEST_I2C = 2 ^ 1 ∧ TEST_HIGHG = 2 ^ 2 ∧
      TEST_GYRO = 2 ^ 3 ∧ TEST_SD = 2 ^ 4 ∧ TEST_OLED = 2 ^ 5 ∧
      TEST_LED = 2 ^ 6 ∧ TEST_BUZZER = 2 ^ 7 ∧
      (TEST_POWER.testBit 0 ∧ TEST_I2C.testBit 1 ∧ TEST_HIGHG.testBit 2 ∧
        TEST_GYRO.testBit 3 ∧ TEST_SD.testBit 4 ∧ TEST_OLED.testBit 5 ∧
        TEST_LED.testBit 6 ∧ TEST_BUZZER.testBit 7) := by
  decide

/-- C7: the ring buffer capacity computed from the configuration constants,
`PRE_TRIGGER_MS × SAMPLE_RATE_HZ / 1000`, equals exactly 100 at the default
values, and the division is exact (no truncation). -/
theorem ring_capacity_default :
    preTriggerSamples = 100 ∧ PRE_TRIGGER_MS = 100 ∧ SAMPLE_RATE_HZ = 1000 ∧
      PRE_TRIGGER_MS * SAMPLE_RATE_HZ % 1000 = 0 ∧
      PRE_TRIGGER_MS * SAMPLE_RATE_HZ = 100 * 1000 := by
  decide

/-- C9: the eight self-test bit constants are pairwise disjoint powers of
two whose union is exactly 0xFF: every check owns one bit and the eight
checks cover the full byte. -/
theorem selftest_bits_partition :
    (∀ x ∈ [TEST_POWER, TEST_I2C, TEST_HIGHG, TEST_GYRO, TEST_SD, TEST_OLED,
        TEST_LED, TEST_BUZZER], ∃ k, k < 8 ∧ x = 2 ^ k) ∧
      List.Pairwise (fun a b => a &&& b = 0)
        [TEST_POWER, TEST_I2C, TEST_HIGHG, TEST_GYRO, TEST_SD, TEST_OLED,
          TEST_LED, TEST_BUZZER] ∧
      List.foldr (· ||| ·) 0
        [TEST_POWER, TEST_I2C, TEST_HIGHG, TEST_GYRO, TEST_SD, TEST_OLED,
          TEST_LED, TEST_BUZZER] = 0xFF ∧
      List.Nodup
        [TEST_POWER, TEST_I2C, TEST_HIGHG, TEST_GYRO, TEST_SD, TEST_OLED,
          TEST_LED, TEST_BUZZER] := by
  decide

/-- C10: the `SystemState` enumeration has exactly eight states whose C
enumerator values are consecutive, 0 through 7, in lifecycle order
BOOT, SELFTEST, IDLE, ARMED, TRIGGERED, LOGGING, COMPLETE, with ERROR last
and numerically greatest; the numeric map is injective and every state is
one of the eight. -/
theorem system_state_codes :
    SystemState.STATE_BOOT.toCode = 0 ∧ SystemState.STATE_SELFTEST.toCode = 1 ∧
      SystemState.STATE_IDLE.toCode = 2 ∧ SystemState.STATE_ARMED.toCode = 3 ∧
      SystemState.STATE_TRIGGERED.toCode = 4 ∧
      SystemState.STATE_LOGGING.toCode = 5 ∧
      SystemState.STATE_COMPLETE.toCode = 6 ∧
      SystemState.STATE_ERROR.toCode = 7 ∧
      (∀ s : SystemState, s.toCode ≤ SystemState.STATE_ERROR.toCode) ∧
      (∀ s t : SystemState, s.toCode = t.toCode → s = t) ∧
      (∀ s : SystemState,
        s ∈ [SystemState.STATE_BOOT, SystemState.STATE_SELFTEST,
          SystemState.STATE_IDLE, SystemState.STATE_ARMED,
          SystemState.STATE_TRIGGERED, SystemState.STATE_LOGGING,
          SystemState.STATE_COMPLETE, SystemState.STATE_ERROR]) := by
  decide

/-- Witness for C9 at a concrete input: the power bit constant is a power of
two below bit 8. -/
theorem selftest_bits_partition_witness : ∃ k, k < 8 ∧ TEST_POWER = 2 ^ k :=
  selftest_bits_partition.1 TEST_POWER (by decide)

/-- Witness for C10 at a concrete input: injectivity of the enumerator map
applied at ARMED, with its hypothesis discharged by evaluation. -/
theorem system_state_codes_witness :
    SystemState.STATE_ARMED = SystemState.STATE_ARMED :=
  system_state_codes.2.2.2.2.2.2.2.2.2.1 SystemState.STATE_ARMED
    SystemState.STATE_ARMED (by decide)

/-! ## C2: trigger threshold boundary -/

/-- Nonnegativity of the squared magnitude, shared by the threshold proofs. -/
theorem magnitudeSq_nonneg (s : Sample) : (0 : ℚ) ≤ magnitudeSq s := by
  unfold magnitudeSq
  positivity

/-- C2: the trigger comparison is inclusive.  While ARMED with the one-shot
flag clear, a sample whose accelerometer magnitude
`sqrt (ax² + ay² + az²)` is exactly `TRIGGER_THRESHOLD_G` (5.0 g) makes
`evaluate` fire, and a sample with magnitude strictly below the threshold
does not fire. -/
theorem trigger_threshold_boundary (d : TriggerDetector) (s : Sample)
    (hd : d.fired = false) :
    (Real.sqrt ((magnitudeSq s : ℚ) : ℝ) = ((TRIGGER_THRESHOLD_G : ℚ) : ℝ) →
      (d.evaluate SystemState.STATE_ARMED s).1 = true) ∧
    (Real.sqrt ((magnitudeSq s : ℚ) : ℝ) < ((TRIGGER_THRESHOLD_G : ℚ) : ℝ) →
      (d.evaluate SystemState.STATE_ARMED s).1 = false) := by
  have hx : (0 : ℝ) ≤ ((magnitudeSq s : ℚ) : ℝ) := by
    exact_mod_cast magnitudeSq_nonneg s
  constructor
  · intro h
    have hsq : ((magnitudeSq s : ℚ) : ℝ) = ((TRIGGER_THRESHOLD_G : ℚ) : ℝ) ^ 2 := by
      rw [← Real.sq_sqrt hx, h]
    have hq : TRIGGER_THRESHOLD_G ^ 2 ≤ magnitudeSq s := by
      have heq : magnitudeSq s = TRIGGER_THRESHOLD_G ^ 2 := by exact_mod_cast hsq
      exact le_of_eq heq.symm
    simp [TriggerDetector.evaluate, hd, hq]
  · intro h
    have h5 : (0 : ℝ) < ((TRIGGER_THRESHOLD_G : ℚ) : ℝ) := by
      norm_num [TRIGGER_THRESHOLD_G]
    have hsq : ((magnitudeSq s : ℚ) : ℝ) < ((TRIGGER_THRESHOLD_G : ℚ) : ℝ) ^ 2 :=
      (Real.sqrt_lt' h5).mp h
    have hq : ¬ TRIGGER_THRESHOLD_G ^ 2 ≤ magnitudeSq s := by
      have hlt : magnitudeSq s < TRIGGER_THRESHOLD_G ^ 2 := by exact_mod_cast hsq
      exact not_le.mpr hlt
    simp [TriggerDetector.evaluate, hd, hq]

/-- Witness for C2 at concrete inputs: a reset detector fires on the 3-4-0
sample of magnitude exactly 5 g and does not fire on the 1 g sample. -/
theorem trigger_threshold_boundary_witness :
    ((⟨false⟩ : TriggerDetector).evaluate SystemState.STATE_ARMED sampleFire).1 = true ∧
    ((⟨false⟩ : TriggerDetector).evaluate SystemState.STATE_ARMED sampleQuiet).1 = false := by
  constructor
  · apply (trigger_threshold_boundary ⟨false⟩ sampleFire rfl).1
    have hm : magnitudeSq sampleFire = 25 := by
      norm_num [magnitudeSq, sampleFire]
    rw [hm]
    rw [show (((25 : ℚ) : ℝ)) = (5 : ℝ) ^ 2 by norm_num]
    rw [Real.sqrt_sq (by norm_num : (0 : ℝ) ≤ 5)]
    norm_num [TRIGGER_THRESHOLD_G]
  · apply (trigger_threshold_boundary ⟨false⟩ sampleQuiet rfl).2
    have hm : magnitudeSq sampleQuiet = 1 := by
      norm_num [magnitudeSq, sampleQuiet]
    rw [hm]
    rw [show (((1 : ℚ) : ℝ)) = (1 : ℝ) ^ 2 by norm_num]
    rw [Real.sqrt_sq (by norm_num : (0 : ℝ) ≤ 1)]
    norm_num [TRIGGER_THRESHOLD_G]

/-! ## Ring buffer lemmas (shared) -/

/-- Taking `c` of an append absorbs an inner `take c` of the right part. -/
theorem take_append_take {α : Type} (m l : List α) (c : Nat) :
    (m ++ l.take c).take c = (m ++ l).take c := by
  rw [List.take_append_eq_append_take, List.take_append_eq_append_take,
    List.take_take]
  rw [Nat.min_eq_left (Nat.sub_le c m.length)]

/-- Contents of a buffer after a sequence of pushes: the newest-first data
is the reversal of the pushed list (prepended to the old data) truncated to
capacity, provided the starting data already fits the capacity. -/
theorem RingBuffer.pushAll_data (xs : List Sample) (b : RingBuffer)
    (hd : b.data.take b.capacity = b.data) :
    (b.pushAll xs).data = (xs.reverse ++ b.data).take b.capacity := by
  induction xs generalizing b with
  | nil => simpa [RingBuffer.pushAll] using hd.symm
  | cons x xs ih =>
    have hd' : (b.push x).data.take (b.push x).capacity = (b.push x).data := by
      show ((x :: b.data).take b.capacity).take b.capacity
        = (x :: b.data).take b.capacity
      rw [List.take_take, Nat.min_self]
    have step : b.pushAll (x :: xs) = (b.push x).pushAll xs := rfl
    rw [step, ih (b.push x) hd']
    show (xs.reverse ++ (x :: b.data).take b.capacity).take b.capacity
      = ((x :: xs).reverse ++ b.data).take b.capacity
    rw [take_append_take]
    simp [List.append_assoc]

/-- Contents of a buffer built from empty by a sequence of pushes. -/
theorem RingBuffer.pushAll_empty_data (c : Nat) (xs : List Sample) :
    ((RingBuffer.empty c).pushAll xs).data = xs.reverse.take c := by
  have h := RingBuffer.pushAll_data xs (RingBuffer.empty c) (by simp [RingBuffer.empty])
  simpa [RingBuffer.empty] using h

/-- Draining a buffer built from empty by a sequence of pushes yields the
last `c` pushed samples, oldest-first. -/
theorem RingBuffer.pushAll_empty_drain (c : Nat) (xs : List Sample) :
    (((RingBuffer.empty c).pushAll xs).drain).1 = xs.drop (xs.length - c) := by
  show ((RingBuffer.empty c).pushAll xs).data.reverse = xs.drop (xs.length - c)
  rw [RingBuffer.pushAll_empty_data, List.take_reverse, List.reverse_reverse]

/-- C3: for every sequence of pushes into an initially empty buffer of
capacity `c`, the buffer holds at most `c` samples; its drain yields exactly
the last `c` pushed samples oldest-first (all of them while fewer than `c`
were pushed), hence exactly `c` samples once at least `c` were pushed; and
drain returns the buffer unchanged. -/
theorem ring_buffer_bounded (c : Nat) (xs : List Sample) :
    ((RingBuffer.empty c).pushAll xs).size ≤ c ∧
    (((RingBuffer.empty c).pushAll xs).drain).1 = xs.drop (xs.length - c) ∧
    (c ≤ xs.length → ((((RingBuffer.empty c).pushAll xs).drain).1).length = c) ∧
    (∀ b : RingBuffer, (b.drain).2 = b) := by
  refine ⟨?_, RingBuffer.pushAll_empty_drain c xs, ?_, fun b => rfl⟩
  · show ((RingBuffer.empty c).pushAll xs).data.length ≤ c
    rw [RingBuffer.pushAll_empty_data]
    exact List.length_take_le c xs.reverse
  · intro h
    rw [RingBuffer.pushAll_empty_drain, List.length_drop]
    omega

/-- Witness for C3 at a concrete input: pushing three samples through a
two-slot buffer keeps the last two, oldest-first, of length two. -/
theorem ring_buffer_bounded_witness :
    (((RingBuffer.empty 2).pushAll [sampleZero, sampleOne, sampleTwo]).drain).1
        = [sampleOne, sampleTwo] ∧
    ((((RingBuffer.empty 2).pushAll [sampleZero, sampleOne, sampleTwo]).drain).1).length
        = 2 := by
  have h := ring_buffer_bounded 2 [sampleZero, sampleOne, sampleTwo]
  refine ⟨?_, h.2.2.1 (by simp)⟩
  have hdrain := h.2.1
  simpa using hdrain

/-! ## C1: capture completeness -/

/-- Rows written by a fold of live appends: the initial rows followed by the
appended samples in order. -/
theorem foldl_appendLive_rows (l : List Sample) (ls : LogSession) :
    (l.foldl LogSession.appendLive ls).rows = ls.rows ++ l := by
  induction l generalizing ls with
  | nil => simp
  | cons x l ih =>
    show (l.foldl LogSession.appendLive (ls.appendLive x)).rows = ls.rows ++ x :: l
    rw [ih]
    simp [LogSession.appendLive]

/-- C1: a session that runs to COMPLETE with no faults, from a full
pre-trigger buffer under the default configuration, persists exactly 2100
data rows: the 100 drained pre-trigger samples followed by the 2000 live
post-trigger samples. -/
theorem capture_completeness (seq : Nat) (b : RingBuffer) (live : List Sample)
    (hb : b.size = preTriggerSamples) (hl : postTriggerSamples ≤ live.length) :
    (runSession seq b live).rows = (b.drain).1 ++ live.take postTriggerSamples ∧
    ((b.drain).1).length = 100 ∧
    (live.take postTriggerSamples).length = 2000 ∧
    (runSession seq b live).rows.length = 2100 := by
  have hrows : (runSession seq b live).rows
      = (b.drain).1 ++ live.take postTriggerSamples := by
    show ((live.take postTriggerSamples).foldl LogSession.appendLive
      (LogSession.openAndDrain seq b)).rows = (b.drain).1 ++ live.take postTriggerSamples
    rw [foldl_appendLive_rows]
    rfl
  have hdr : ((b.drain).1).length = 100 := by
    show b.data.reverse.length = 100
    rw [List.length_reverse]
    have hb' : b.data.length = preTriggerSamples := hb
    rw [hb']
    decide
  have hlv : (live.take postTriggerSamples).length = 2000 := by
    rw [List.length_take]
    have h2 : postTriggerSamples = 2000 := by decide
    omega
  refine ⟨hrows, hdr, hlv, ?_⟩
  rw [hrows, List.length_append, hdr, hlv]

/-- Witness for C1 at a concrete input: a full 100-sample buffer and a
2000-sample live stream produce a file with exactly 2100 data rows. -/
theorem capture_completeness_witness :
    (runSession 1 ⟨100, List.replicate 100 sampleZero⟩
      (List.replicate 2000 sampleOne)).rows.length = 2100 := by
  have hb : (RingBuffer.mk 100 (List.replicate 100 sampleZero)).size
      = preTriggerSamples := by
    show (List.replicate 100 sampleZero).length = preTriggerSamples
    rw [List.length_replicate]
    decide
  have hl : postTriggerSamples ≤ (List.replicate 2000 sampleOne).length := by
    rw [List.length_replicate]
    decide
  exact (capture_completeness 1 _ _ hb hl).2.2.2

/-! ## C4: at most one fire per arm cycle -/

/-- A detector whose one-shot flag is set never fires again within the same
arm cycle. -/
theorem fireCount_fired (xs : List Sample) :
    fireCount ⟨true⟩ xs = 0 := by
  induction xs with
  | nil => rfl
  | cons x xs ih =>
    show (if ((⟨true⟩ : TriggerDetector).evaluate SystemState.STATE_ARMED x).1
        then 1 else 0)
      + fireCount ((⟨true⟩ : TriggerDetector).evaluate SystemState.STATE_ARMED x).2 xs
      = 0
    have hev : (⟨true⟩ : TriggerDetector).evaluate SystemState.STATE_ARMED x
        = (false, ⟨true⟩) := by
      simp [TriggerDetector.evaluate]
    rw [hev]
    simpa using ih

/-- C4: within one ARMED period the detector fires at most once for every
sample sequence, starting from the reset state that re-entering ARMED from
IDLE establishes; and after such a reset the detector may fire again: it
fires exactly on a sample whose squared magnitude reaches the squared
threshold. -/
theorem trigger_single_fire (xs : List Sample) :
    fireCount TriggerDetector.reset xs ≤ 1 ∧
    (∀ s : Sample,
      ((TriggerDetector.reset.evaluate SystemState.STATE_ARMED s).1 = true
        ↔ TRIGGER_THRESHOLD_G ^ 2 ≤ magnitudeSq s)) := by
  constructor
  · induction xs with
    | nil => simp [fireCount]
    | cons x xs ih =>
      show (if (TriggerDetector.reset.evaluate SystemState.STATE_ARMED x).1
          then 1 else 0)
        + fireCount (TriggerDetector.reset.evaluate SystemState.STATE_ARMED x).2 xs
        ≤ 1
      by_cases hx : TRIGGER_THRESHOLD_G ^ 2 ≤ magnitudeSq x
      · have hev : TriggerDetector.reset.evaluate SystemState.STATE_ARMED x
            = (true, ⟨true⟩) := by
          simp [TriggerDetector.evaluate, TriggerDetector.reset, hx]
        rw [hev]
        simp [fireCount_fired]
      · have hev : TriggerDetector.reset.evaluate SystemState.STATE_ARMED x
            = (false, TriggerDetector.reset) := by
          simp [TriggerDetector.evaluate, TriggerDetector.reset, hx]
        rw [hev]
        simpa using ih
  · intro s
    by_cases hx : TRIGGER_THRESHOLD_G ^ 2 ≤ magnitudeSq s
    · simp [TriggerDetector.evaluate, TriggerDetector.reset, hx]
    · simp [TriggerDetector.evaluate, TriggerDetector.reset, hx]

/-- Witness for C4 at a concrete input: a sequence holding two
above-threshold samples still yields exactly at most one fire, and the reset
detector does fire on the exactly-threshold sample. -/
theorem trigger_single_fire_witness :
    fireCount TriggerDetector.reset [sampleFire, sampleQuiet, sampleFire] ≤ 1 ∧
    (TriggerDetector.reset.evaluate SystemState.STATE_ARMED sampleFire).1 = true := by
  refine ⟨(trigger_single_fire [sampleFire, sampleQuiet, sampleFire]).1, ?_⟩
  exact (trigger_single_fire []).2 sampleFire |>.mpr (by
    norm_num [magnitudeSq, sampleFire, TRIGGER_THRESHOLD_G])

/-! ## C5: self-test pass condition and gating of ARMED -/

set_option maxRecDepth 8192 in
/-- C5: over byte-valued result bitmasks, the self-test verdict is pass
exactly when all five mandatory bits (power, I2C, high-g, gyro, storage)
are 1; and whenever any mandatory bit — the storage bit among them — is 0,
the machine steps SELFTEST to ERROR on the self-test event and no event
sequence from BOOT ever reaches ARMED in that boot cycle. -/
theorem selftest_gating (r : Nat) (hr : r < 256) :
    (selfTestPass r = true ↔
      (r.testBit 0 ∧ r.testBit 1 ∧ r.testBit 2 ∧ r.testBit 3 ∧ r.testBit 4)) ∧
    (¬ (r.testBit 0 ∧ r.testBit 1 ∧ r.testBit 2 ∧ r.testBit 3 ∧ r.testBit 4) →
      stepSM r SystemState.STATE_SELFTEST Event.selfTestDone
          = SystemState.STATE_ERROR ∧
      ∀ es : List Event, runSM r es ≠ SystemState.STATE_ARMED) := by
  have hiff : ∀ r' < 256, (selfTestPass r' = true ↔
      (r'.testBit 0 ∧ r'.testBit 1 ∧ r'.testBit 2 ∧ r'.testBit 3 ∧
        r'.testBit 4)) := by decide
  refine ⟨hiff r hr, ?_⟩
  intro hmand
  have hpass : selfTestPass r = false := by
    cases hb : selfTestPass r with
    | false => rfl
    | true => exact absurd ((hiff r hr).mp hb) hmand
  have step_closed : ∀ (st : SystemState) (e : Event),
      (st = SystemState.STATE_BOOT ∨ st = SystemState.STATE_SELFTEST ∨
        st = SystemState.STATE_ERROR) →
      (stepSM r st e = SystemState.STATE_BOOT ∨
        stepSM r st e = SystemState.STATE_SELFTEST ∨
        stepSM r st e = SystemState.STATE_ERROR) := by
    intro st e hst
    rcases hst with h | h | h <;> subst h <;> cases e <;> simp [stepSM, hpass]
  have hrun : ∀ (es : List Event) (st : SystemState),
      (st = SystemState.STATE_BOOT ∨ st = SystemState.STATE_SELFTEST ∨
        st = SystemState.STATE_ERROR) →
      (es.foldl (stepSM r) st = SystemState.STATE_BOOT ∨
        es.foldl (stepSM r) st = SystemState.STATE_SELFTEST ∨
        es.foldl (stepSM r) st = SystemState.STATE_ERROR) := by
    intro es
    induction es with
    | nil => intro st hst; simpa using hst
    | cons e es ih => intro st hst; exact ih _ (step_closed st e hst)
  constructor
  · simp [stepSM, hpass]
  · intro es
    have h := hrun es SystemState.STATE_BOOT (Or.inl rfl)
    show es.foldl (stepSM r) SystemState.STATE_BOOT ≠ SystemState.STATE_ARMED
    rcases h with h | h | h <;> rw [h] <;> simp

/-- Witness for C5 at concrete inputs: the bitmask 0xEF (all checks pass
except storage) and the bitmask 0xFE (all checks pass except power) each
send SELFTEST to ERROR, and a boot-selftest-arm event sequence does not
reach ARMED for either. -/
theorem selftest_gating_witness :
    (stepSM 0xEF SystemState.STATE_SELFTEST Event.selfTestDone
        = SystemState.STATE_ERROR ∧
      runSM 0xEF [Event.bootDelayDone, Event.selfTestDone, Event.armSignal]
        ≠ SystemState.STATE_ARMED) ∧
    (stepSM 0xFE SystemState.STATE_SELFTEST Event.selfTestDone
        = SystemState.STATE_ERROR ∧
      runSM 0xFE [Event.bootDelayDone, Event.selfTestDone, Event.armSignal]
        ≠ SystemState.STATE_ARMED) := by
  constructor
  · have h := (selftest_gating 0xEF (by decide)).2 (by decide)
    exact ⟨h.1, h.2 [Event.bootDelayDone, Event.selfTestDone, Event.armSignal]⟩
  · have h := (selftest_gating 0xFE (by decide)).2 (by decide)
    exact ⟨h.1, h.2 [Event.bootDelayDone, Event.selfTestDone, Event.armSignal]⟩

/-! ## C8: timestamp ordering of a completed session -/

/-- Dropping a prefix of `List.range` leaves a `List.range'` segment. -/
theorem range_drop_eq (T a : Nat) (h : a ≤ T) :
    (List.range T).drop a = List.range' a (T - a) := by
  obtain ⟨b, rfl⟩ : ∃ b, T = a + b := ⟨T - a, by omega⟩
  rw [List.range_eq_range']
  have h4 : a + b - a = b := by omega
  rw [h4]
  rw [show a + b = b + a from by omega]
  rw [← List.range'_append_1 0 a b]
  rw [List.drop_left' (by simp)]
  simp

/-- Timestamps of consecutive ticks: adjacent elements are strictly
increasing with a gap of exactly one sample interval. -/
theorem chain_tick_timestamps (t0 : Nat) :
    ∀ n s : Nat,
      List.Chain' (fun a b => a < b ∧ b - a ≤ SAMPLE_INTERVAL_US)
        ((List.range' s n).map (fun j => t0 + j * SAMPLE_INTERVAL_US)) := by
  intro n
  induction n with
  | zero => intro s; simp
  | succ m ih =>
    intro s
    cases m with
    | zero => simp
    | succ k =>
      rw [List.range'_succ, List.map_cons, List.range'_succ, List.map_cons]
      rw [List.chain'_cons]
      constructor
      · constructor
        · show t0 + s * 1000 < t0 + (s + 1) * 1000
          omega
        · show t0 + (s + 1) * 1000 - (t0 + s * 1000) ≤ 1000
          omega
      · have h := ih (s + 1)
        rw [List.range'_succ, List.map_cons] at h
        exact h

/-- Timestamps of a completed run form one contiguous tick segment: the
drained pre-trigger window and the live post-trigger window are consecutive
ticks with no seam at the drain/live boundary. -/
theorem completedRun_timestamps (t0 : Nat) (p : Nat → MotionData) (T : Nat) :
    (completedRun t0 p T).rows.map Sample.timestamp_us
      = (List.range' (T - preTriggerSamples)
          (postTriggerSamples + (T - (T - preTriggerSamples)))).map
          (fun j => t0 + j * SAMPLE_INTERVAL_US) := by
  have h1 : (completedRun t0 p T).rows
      = (armedPhaseBuffer t0 p T).drain.1
        ++ ((List.range' T postTriggerSamples).map (tickSample t0 p)).take
            postTriggerSamples := by
    show ((((List.range' T postTriggerSamples).map (tickSample t0 p)).take
        postTriggerSamples).foldl LogSession.appendLive
        (LogSession.openAndDrain 1 (armedPhaseBuffer t0 p T))).rows = _
    rw [foldl_appendLive_rows]
    rfl
  have h2 : (armedPhaseBuffer t0 p T).drain.1
      = ((List.range T).map (tickSample t0 p)).drop (T - preTriggerSamples) := by
    show (((RingBuffer.empty preTriggerSamples).pushAll
        ((List.range T).map (tickSample t0 p))).drain).1 = _
    rw [RingBuffer.pushAll_empty_drain, List.length_map, List.length_range]
  have h3 : ((List.range' T postTriggerSamples).map (tickSample t0 p)).take
      postTriggerSamples = (List.range' T postTriggerSamples).map (tickSample t0 p) := by
    apply List.take_of_length_le
    simp
  rw [h1, h2, h3, ← List.map_drop]
  rw [range_drop_eq T (T - preTriggerSamples) (by omega)]
  rw [← List.map_append, List.map_map]
  have h5 : List.range' (T - preTriggerSamples) (T - (T - preTriggerSamples))
      ++ List.range' T postTriggerSamples
      = List.range' (T - preTriggerSamples)
          (postTriggerSamples + (T - (T - preTriggerSamples))) := by
    have h6 := List.range'_append_1 (T - preTriggerSamples)
      (T - (T - preTriggerSamples)) postTriggerSamples
    rw [show T - preTriggerSamples + (T - (T - preTriggerSamples)) = T from by omega]
      at h6
    exact h6
  rw [h5]
  rfl

/-- Timestamps of consecutive ticks are pairwise strictly increasing, not
only between adjacent rows. -/
theorem pairwise_tick_timestamps (t0 : Nat) :
    ∀ n s : Nat,
      List.Pairwise (fun a b => a < b)
        ((List.range' s n).map (fun j => t0 + j * SAMPLE_INTERVAL_US)) := by
  intro n
  induction n with
  | zero => intro s; simp
  | succ m ih =>
    intro s
    rw [List.range'_succ, List.map_cons, List.pairwise_cons]
    constructor
    · intro a ha
      obtain ⟨j, hj, rfl⟩ := List.mem_map.mp ha
      obtain ⟨i, hi, rfl⟩ := List.mem_range'.mp hj
      show t0 + s * 1000 < t0 + (s + 1 + 1 * i) * 1000
      omega
    · exact ih (s + 1)

/-- C8: for any completed session the written data rows' timestamps are
strictly increasing (hence duplicate-free) and no two consecutive rows are
more than one nominal sample interval (`SAMPLE_INTERVAL_US`) apart, across
the drain/live boundary as well as within each phase. -/
theorem session_timestamp_ordering (t0 : Nat) (p : Nat → MotionData) (T : Nat) :
    List.Pairwise (fun a b => a < b)
      ((completedRun t0 p T).rows.map Sample.timestamp_us) ∧
    ((completedRun t0 p T).rows.map Sample.timestamp_us).Nodup ∧
    List.Chain' (fun a b => b - a ≤ SAMPLE_INTERVAL_US)
      ((completedRun t0 p T).rows.map Sample.timestamp_us) := by
  have H : ∀ a b : Nat, (a < b ∧ b - a ≤ SAMPLE_INTERVAL_US) →
      b - a ≤ SAMPLE_INTERVAL_US := fun _ _ h => h.2
  have hpw : List.Pairwise (fun a b => a < b)
      ((completedRun t0 p T).rows.map Sample.timestamp_us) := by
    rw [completedRun_timestamps]
    exact pairwise_tick_timestamps t0 _ _
  have hnd : ((completedRun t0 p T).rows.map Sample.timestamp_us).Nodup := by
    rw [completedRun_timestamps]
    exact (pairwise_tick_timestamps t0 _ _).imp (fun h => Nat.ne_of_lt h)
  refine ⟨hpw, hnd, ?_⟩
  rw [completedRun_timestamps]
  exact List.Chain'.imp H (chain_tick_timestamps t0 _ _)

end STEP
